import Mathlib

/-!
Verification of the course-planning logic of `src/course-app.js`.

The JavaScript component is shallowly embedded: the reactive component state
becomes the structure `AppState`, every mutating method becomes a pure state
transformer (external `confirm()` decisions, fresh ids and timestamps are
passed as parameters), and JavaScript truthiness tests that the source
performs (`!x`) are modelled explicitly (`jtruthy`, `truthyOptStr`,
`truthyOptInt`).  Numbers are `Int`/`Nat`; `String(n)` is modelled by the
decimal renderer `jsNatStr`/`jsIntStr` defined below.
-/

/-- Decimal digit character, as produced by JavaScript number-to-string
conversion: `jsDigitChar d` is the character for digit `d < 10`. -/
def jsDigitChar (d : Nat) : Char := Char.ofNat (48 + d)

/-- Digit list of `n` in base 10, most significant first, with explicit fuel
(the fuel `n + 1` always suffices since the argument shrinks by `/ 10`). -/
def jsNatStrAux : Nat → Nat → List Char
  | 0, _ => []
  | fuel + 1, n =>
    if n < 10 then [jsDigitChar n]
    else jsNatStrAux fuel (n / 10) ++ [jsDigitChar (n % 10)]

/-- JavaScript `String(n)` for a natural number: decimal representation. -/
def jsNatStr (n : Nat) : String := String.mk (jsNatStrAux (n + 1) n)

/-- JavaScript `String(i)` for an integer (used for
`recommendedSemester`). -/
def jsIntStr (i : Int) : String :=
  if i < 0 then "-" ++ jsNatStr (-i).toNat else jsNatStr i.toNat

/-- JavaScript truthiness of a nullable number (`!x` is true exactly on
`null`/`undefined` and `0`). -/
def jtruthy : Option Int → Bool
  | none => false
  | some w => decide (w ≠ 0)

/-- JavaScript truthiness of a nullable string (`!x` is true exactly on
`null`/`undefined` and `""`). -/
def truthyOptStr : Option String → Bool
  | none => false
  | some s => decide (s ≠ "")

/-- JavaScript truthiness of a nullable integer field. -/
def truthyOptInt : Option Int → Bool
  | none => false
  | some n => decide (n ≠ 0)

/-- A JavaScript object used as a string-keyed map of integers
(`settings.semesterMaxCredits`). -/
abbrev Jmap := List (String × Int)

/-- Reading `m[k]`: `none` models `undefined`. -/
def jget (m : Jmap) (k : String) : Option Int :=
  match m with
  | [] => none
  | (a, b) :: rest => if a = k then some b else jget rest k

/-- Writing `m[k] = v`: replace the binding if present, append otherwise. -/
def jset (m : Jmap) (k : String) (v : Int) : Jmap :=
  match m with
  | [] => [(k, v)]
  | (a, b) :: rest => if a = k then (k, v) :: rest else (a, b) :: jset rest k v

/-- One default-filling step of `generateSemesterList`:
`if (!map[k]) map[k] = v`. -/
def fillStep (m : Jmap) (k : String) (v : Int) : Jmap :=
  if jtruthy (jget m k) then m else jset m k v

/-- A `for` loop of default-filling steps over a list of key/value pairs. -/
def fillList (ks : List (String × Int)) (m : Jmap) : Jmap :=
  ks.foldl (fun m p => fillStep m p.1 p.2) m

/-- One course record (`newCourse` / entries of `this.courses`). -/
structure Course where
  id : String
  code : String
  name : String
  type : String
  credits : Int
  lecturer : String
  recommendedSemester : Option Int
  assignedSemester : Option String
deriving DecidableEq

/-- One entry of the derived `semesterList`. -/
structure Semester where
  id : String
  name : String
  type : String
deriving DecidableEq

/-- Plan-wide `settings`. -/
structure Settings where
  totalSemesters : Int
  semesterMaxCredits : Jmap
  targetCredits : Int
deriving DecidableEq

/-- The component state: plan data plus the length-keyed caches of the
derived aggregates (`_cachedUnassigned`, `_cachedTotal`,
`_lastCoursesUpdate`, `_lastTotalUpdate`). -/
structure AppState where
  settings : Settings
  semesterList : List Semester
  courses : List Course
  lastSaved : Option String
  cachedUnassigned : Option (List Course)
  cachedTotal : Option Int
  lastCoursesUpdate : Nat
  lastTotalUpdate : Nat
deriving DecidableEq

/-- The effective total used by `generateSemesterList`:
`this.settings.totalSemesters || 8` (so `0` falls back to `8`;
negative values are truthy and kept). -/
def effTotal (t : Int) : Int := if t = 0 then 8 else t

/-- Number of antara slots implied by the (effective) total:
`Math.floor((totalSemesters - 1) / 2)`, clamped at `0` since a negative
bound runs the `for` loop zero times. -/
def antaraCount (t : Int) : Nat := if t ≤ 0 then 0 else (t - 1).toNat / 2

/-- The ordered semester list built by the first loop of
`generateSemesterList`: semesters `1..n`, with an antara entry after every
even semester `i` with `i < n`. -/
def semListFor (n : Nat) : List Semester :=
  (List.range n).flatMap (fun j =>
    { id := jsNatStr (j + 1), name := "Semester " ++ jsNatStr (j + 1),
      type := "normal" } ::
    (if (j + 1) % 2 = 0 ∧ j + 1 < n then
      [{ id := "antara-" ++ jsNatStr ((j + 1) / 2),
         name := "Antara " ++ jsNatStr ((j + 1) / 2), type := "antara" }]
     else []))

/-- Key/value pairs written by the regular-semester default loop:
semester `i` gets `20` when `i ≤ 2` and `24` otherwise. -/
def regKeys (n : Nat) : List (String × Int) :=
  (List.range n).map (fun j =>
    (jsNatStr (j + 1), if j + 1 ≤ 2 then (20 : Int) else 24))

/-- Key/value pairs written by the antara default loop: value `9`. -/
def antKeys (c : Nat) : List (String × Int) :=
  (List.range c).map (fun j => ("antara-" ++ jsNatStr (j + 1), (9 : Int)))

/-- `generateSemesterList()`: rebuilds `semesterList` from
`settings.totalSemesters` and back-fills missing credit ceilings in
`settings.semesterMaxCredits`.  Returns the updated settings and the new
list. -/
def generateSemesterList (s : Settings) : Settings × List Semester :=
  let t := effTotal s.totalSemesters
  let n := t.toNat
  let m1 := fillList (regKeys n) s.semesterMaxCredits
  let m2 := fillList (antKeys (antaraCount t)) m1
  ({ s with semesterMaxCredits := m2 }, semListFor n)

/-- Courses assigned to a semester: `courses.filter(c =>
c.assignedSemester === semester)`. -/
def getSemesterCourses (st : AppState) (sem : String) : List Course :=
  st.courses.filter (fun c => c.assignedSemester = some sem)

/-- `getSemesterCredits`: reduce-sum of credits over the semester's
courses. -/
def getSemesterCredits (st : AppState) (sem : String) : Int :=
  (getSemesterCourses st sem).foldl (fun acc c => acc + c.credits) 0

/-- `getSemesterMaxCredits`: `semesterMaxCredits[semester] || 24`. -/
def getSemesterMaxCredits (st : AppState) (sem : String) : Int :=
  match jget st.settings.semesterMaxCredits sem with
  | none => 24
  | some v => if v = 0 then 24 else v

/-- `getCreditClass`: tri-state credit status rendered as a CSS class. -/
def getCreditClass (st : AppState) (sem : String) : String :=
  let credits := getSemesterCredits st sem
  let mx := getSemesterMaxCredits st sem
  if credits > mx then "text-red-600 dark:text-red-400"
  else if credits = mx then "text-green-600 dark:text-green-400"
  else "text-blue-600 dark:text-blue-400"

/-- `invalidateCache()`: reset the cached aggregates and their length
keys. -/
def invalidateCache (st : AppState) : AppState :=
  { st with cachedUnassigned := none, cachedTotal := none,
            lastCoursesUpdate := 0, lastTotalUpdate := 0 }

/-- `saveToLocalStorage()` restricted to its effect on the modelled state:
records the timestamp of the write. -/
def saveToLocalStorage (st : AppState) (now : String) : AppState :=
  { st with lastSaved := some now }

/-- The cached getter `unassignedCourses`: recomputed when the cache is
`null` or the stored length key differs from the current course count. -/
def unassignedCourses (st : AppState) : List Course :=
  if st.cachedUnassigned = none ∨ st.lastCoursesUpdate ≠ st.courses.length then
    st.courses.filter (fun c => !truthyOptStr c.assignedSemester)
  else st.cachedUnassigned.getD []

/-- The cached getter `totalCreditsTaken`: recomputed when the cache is
`null` or the stored length key differs from the current course count. -/
def totalCreditsTaken (st : AppState) : Int :=
  if st.cachedTotal = none ∨ st.lastTotalUpdate ≠ st.courses.length then
    (st.courses.filter (fun c => truthyOptStr c.assignedSemester)).foldl
      (fun acc c => acc + c.credits) 0
  else st.cachedTotal.getD 0

/-- Replace the first course whose id matches (the
`findIndex`/assignment pair in `saveCourse`); unchanged when absent. -/
def replaceFirst (l : List Course) (eid : String) (d : Course) : List Course :=
  match l with
  | [] => []
  | c :: rest => if c.id = eid then d :: rest else c :: replaceFirst rest eid d

/-- `saveCourse()`: validate the draft, then update in place (edit mode,
`editing = some id`) or append with a fresh id (add mode).  The second
component is the announced error key, `none` on success. -/
def saveCourse (st : AppState) (editing : Option String) (draft : Course)
    (newId now : String) : AppState × Option String :=
  if draft.code = "" ∨ draft.name = "" then (st, some "error_required_fields")
  else if draft.credits < 1 ∨ draft.credits > 8 then
    (st, some "error_credits_range")
  else
    let cs := match editing with
      | some eid => replaceFirst st.courses eid draft
      | none => st.courses ++ [{ draft with id := newId }]
    (saveToLocalStorage (invalidateCache { st with courses := cs }) now, none)

/-- `deleteCourse()`: with confirmation, splice out the first course with
the given id; nothing happens when the id is absent or the user
declines. -/
def deleteCourse (st : AppState) (c : Course) (confirm : Bool)
    (now : String) : AppState :=
  if confirm then
    if st.courses.any (fun e => e.id = c.id) then
      saveToLocalStorage
        (invalidateCache
          { st with courses := st.courses.eraseP (fun e => e.id = c.id) }) now
    else st
  else st

/-- Outcome of `assignCourse`: whether the over-limit confirmation dialog
was shown, with the reported overage. -/
inductive AssignResult where
  | ignored : AssignResult
  | committed : AssignResult
  | confirmedOver (overage : Int) : AssignResult
  | declinedOver (overage : Int) : AssignResult
deriving DecidableEq

/-- The state after `assignCourse` commits: the course's
`assignedSemester` is set, caches invalidated, storage written. -/
def assignCommit (st : AppState) (course : Course) (sem : String)
    (now : String) : AppState :=
  saveToLocalStorage
    (invalidateCache
      { st with courses := st.courses.map (fun c =>
          if c.id = course.id then { c with assignedSemester := some sem }
          else c) }) now

/-- `assignCourse(course, semester)`: empty semester ids are ignored; an
assignment that would exceed the ceiling is committed only when the
external confirmation is given, and the overage is reported. -/
def assignCourse (st : AppState) (course : Course) (sem : String)
    (confirm : Bool) (now : String) : AppState × AssignResult :=
  if sem = "" then (st, .ignored)
  else
    let currentCredits := getSemesterCredits st sem
    let maxCredits := getSemesterMaxCredits st sem
    let newTotal := currentCredits + course.credits
    if newTotal > maxCredits then
      if confirm then
        (assignCommit st course sem now, .confirmedOver (newTotal - maxCredits))
      else (st, .declinedOver (newTotal - maxCredits))
    else (assignCommit st course sem now, .committed)

/-- `unassignCourse(course)`: set the course's assignment to `null`. -/
def unassignCourse (st : AppState) (course : Course) (now : String) : AppState :=
  saveToLocalStorage
    (invalidateCache
      { st with courses := st.courses.map (fun c =>
          if c.id = course.id then { c with assignedSemester := none }
          else c) }) now

/-- The per-course test of `autoMapCourses`: unassigned (falsy), with a
truthy recommendation whose string form occurs in the semester list. -/
def autoMapCond (lst : List Semester) (c : Course) : Bool :=
  !truthyOptStr c.assignedSemester &&
    (match c.recommendedSemester with
     | none => false
     | some r => decide (r ≠ 0) && lst.any (fun s => s.id = jsIntStr r))

/-- The per-course effect of `autoMapCourses`. -/
def autoMapFn (lst : List Semester) (c : Course) : Course :=
  if autoMapCond lst c then
    { c with assignedSemester := some (jsIntStr (c.recommendedSemester.getD 0)) }
  else c

/-- `autoMapCourses()`: map every eligible unassigned course to its
recommended semester; caches and storage are touched only when at least one
course was mapped.  Returns the mapped count. -/
def autoMapCourses (st : AppState) (now : String) : AppState × Nat :=
  let cnt := st.courses.countP (autoMapCond st.semesterList)
  if cnt > 0 then
    (saveToLocalStorage
      (invalidateCache
        { st with courses := st.courses.map (autoMapFn st.semesterList) }) now,
     cnt)
  else (st, cnt)

/-- The `courses` field of a parsed JSON import, as the validation
`!data.courses || !Array.isArray(data.courses)` distinguishes it. -/
inductive CoursesField where
  | missing : CoursesField
  | notArray : CoursesField
  | arr (cs : List Course) : CoursesField
deriving DecidableEq

/-- A parsed JSON `settings` object; absent keys leave the current value in
place under the spread merge `{...this.settings, ...data.settings}`. -/
structure SettingsPatch where
  totalSemesters : Option Int
  semesterMaxCredits : Option Jmap
  targetCredits : Option Int
deriving DecidableEq

/-- Shallow merge of a parsed settings object over the current settings. -/
def mergeSettings (cur : Settings) (p : SettingsPatch) : Settings :=
  { totalSemesters := p.totalSemesters.getD cur.totalSemesters,
    semesterMaxCredits := p.semesterMaxCredits.getD cur.semesterMaxCredits,
    targetCredits := p.targetCredits.getD cur.targetCredits }

/-- The parsed value handed to `importJSON` by `JSON.parse`. -/
structure ImportData where
  courses : CoursesField
  settings : Option SettingsPatch
deriving DecidableEq

/-- Outcome of an import. -/
inductive ImportResult where
  | error (msg : String) : ImportResult
  | cancelled : ImportResult
  | success (count : Nat) : ImportResult
deriving DecidableEq

/-- Whether an import outcome is an error. -/
def ImportResult.isError : ImportResult → Bool
  | .error _ => true
  | _ => false

/-- `importJSON`: `none` input models a `JSON.parse` failure.  A missing or
non-array `courses` field aborts with a descriptive error.  On confirmation
the courses are replaced wholesale; parsed settings are shallow-merged,
normalised (`totalSemesters || 8`) and the semester list regenerated. -/
def importJSON (st : AppState) (inp : Option ImportData) (confirm : Bool)
    (now : String) : AppState × ImportResult :=
  match inp with
  | none => (st, .error "JSON.parse failed")
  | some d =>
    match d.courses with
    | .arr cs =>
      if confirm then
        let st1 := { st with courses := cs }
        let st2 :=
          match d.settings with
          | some p =>
            let s1 := mergeSettings st.settings p
            let s2 := if s1.totalSemesters = 0 then
                        { s1 with totalSemesters := 8 } else s1
            let gen := generateSemesterList s2
            { st1 with settings := gen.1, semesterList := gen.2 }
          | none => st1
        (saveToLocalStorage (invalidateCache st2) now, .success cs.length)
      else (st, .cancelled)
    | _ => (st, .error "Invalid JSON format: missing courses array")

/-- `importCSV` after row parsing (`none` models a parse error): on
confirmation the parsed rows replace the whole course collection. -/
def importCSV (st : AppState) (parsed : Option (List Course)) (confirm : Bool)
    (now : String) : AppState :=
  match parsed with
  | none => st
  | some cs =>
    if confirm then
      saveToLocalStorage (invalidateCache { st with courses := cs }) now
    else st

/-- The object serialised by `exportToJSON`. -/
structure ExportData where
  settings : Settings
  courses : List Course
  exportDate : String
deriving DecidableEq

/-- `exportToJSON`: serialise settings, courses and the export date. -/
def exportToJSON (st : AppState) (exportDate : String) : ExportData :=
  { settings := st.settings, courses := st.courses, exportDate := exportDate }

/-- Parsing the text produced by `exportToJSON` recovers its fields: the
courses as an array and the settings object with every key present. -/
def parseExport (e : ExportData) : ImportData :=
  { courses := .arr e.courses,
    settings := some
      { totalSemesters := some e.settings.totalSemesters,
        semesterMaxCredits := some e.settings.semesterMaxCredits,
        targetCredits := some e.settings.targetCredits } }

/-- The initial component state of the source (`settings` literal of
`course-app.js`, empty course list, cold caches). -/
def initialState : AppState :=
  { settings :=
      { totalSemesters := 8,
        semesterMaxCredits :=
          [("1", 20), ("2", 20), ("3", 24), ("4", 24), ("5", 24), ("6", 24),
           ("7", 24), ("8", 24), ("antara-1", 9), ("antara-2", 9),
           ("antara-3", 9)],
        targetCredits := 145 },
    semesterList := [],
    courses := [],
    lastSaved := none,
    cachedUnassigned := none,
    cachedTotal := none,
    lastCoursesUpdate := 0,
    lastTotalUpdate := 0 }

/-! ### Decimal-string facts -/

/-- Digit characters decode back to their digit. -/
theorem jsDigitChar_val : ∀ d, d < 10 → (jsDigitChar d).toNat - 48 = d := by
  decide

/-- Digit characters are never the letter of `"antara-"`. -/
theorem jsDigitChar_ne_a : ∀ d, d < 10 → jsDigitChar d ≠ 'a' := by decide

/-- The fuel of `jsNatStrAux` is irrelevant once it exceeds the argument. -/
theorem jsNatStrAux_fuel (n : Nat) : ∀ f₁ f₂, n < f₁ → n < f₂ →
    jsNatStrAux f₁ n = jsNatStrAux f₂ n := by
  induction n using Nat.strong_induction_on with
  | _ n ih =>
    intro f₁ f₂ h₁ h₂
    obtain ⟨g₁, rfl⟩ : ∃ g, f₁ = g + 1 := ⟨f₁ - 1, by omega⟩
    obtain ⟨g₂, rfl⟩ : ∃ g, f₂ = g + 1 := ⟨f₂ - 1, by omega⟩
    simp only [jsNatStrAux]
    by_cases h : n < 10
    · simp [h]
    · have hd : n / 10 < n := Nat.div_lt_self (by omega) (by norm_num)
      simp only [h, if_false]
      rw [ih (n / 10) hd g₁ g₂ (by omega) (by omega)]

/-- Decimal value of a digit list, most significant first. -/
def jsVal (l : List Char) : Nat :=
  l.foldl (fun a c => 10 * a + (c.toNat - 48)) 0

theorem jsVal_append_digit (l : List Char) (c : Char) :
    jsVal (l ++ [c]) = 10 * jsVal l + (c.toNat - 48) := by
  simp [jsVal, List.foldl_append]

/-- The digit list of `n` decodes to `n`. -/
theorem jsVal_jsNatStrAux (n : Nat) : jsVal (jsNatStrAux (n + 1) n) = n := by
  induction n using Nat.strong_induction_on with
  | _ n ih =>
    by_cases h : n < 10
    · simp only [jsNatStrAux, h, if_true, jsVal, List.foldl_cons,
        List.foldl_nil]
      have := jsDigitChar_val n h
      omega
    · have hd : n / 10 < n := Nat.div_lt_self (by omega) (by norm_num)
      have hm : n % 10 < 10 := Nat.mod_lt _ (by norm_num)
      simp only [jsNatStrAux, h, if_false]
      rw [jsNatStrAux_fuel (n / 10) n (n / 10 + 1) (by omega) (by omega),
        jsVal_append_digit, ih (n / 10) hd, jsDigitChar_val (n % 10) hm]
      omega

/-- JavaScript decimal rendering of naturals is injective. -/
theorem jsNatStr_inj (m n : Nat) (h : jsNatStr m = jsNatStr n) : m = n := by
  have hd : jsNatStrAux (m + 1) m = jsNatStrAux (n + 1) n :=
    congrArg String.data h
  have := congrArg jsVal hd
  rwa [jsVal_jsNatStrAux, jsVal_jsNatStrAux] at this

/-- Every character produced by `jsNatStrAux` is a digit character. -/
theorem jsNatStrAux_mem (f : Nat) : ∀ n, ∀ c ∈ jsNatStrAux f n,
    ∃ d, d < 10 ∧ c = jsDigitChar d := by
  induction f with
  | zero => intro n c hc; simp [jsNatStrAux] at hc
  | succ f ih =>
    intro n c hc
    by_cases h : n < 10
    · simp only [jsNatStrAux, h, if_true, List.mem_singleton] at hc
      exact ⟨n, h, hc⟩
    · simp only [jsNatStrAux, h, if_false, List.mem_append,
        List.mem_singleton] at hc
      rcases hc with hc | hc
      · exact ih (n / 10) c hc
      · exact ⟨n % 10, Nat.mod_lt _ (by norm_num), hc⟩

/-- The digit list of `n` is non-empty. -/
theorem jsNatStrAux_ne_nil (n : Nat) : jsNatStrAux (n + 1) n ≠ [] := by
  by_cases h : n < 10 <;> simp [jsNatStrAux, h]

/-- A decimal string never equals an `"antara-"`-prefixed string. -/
theorem jsNatStr_ne_antara (i j : Nat) :
    jsNatStr i ≠ "antara-" ++ jsNatStr j := by
  intro h
  have hd : jsNatStrAux (i + 1) i =
      "antara-".data ++ jsNatStrAux (j + 1) j := by
    have := congrArg String.data h
    simpa [jsNatStr, String.data_append] using this
  rcases he : jsNatStrAux (i + 1) i with _ | ⟨c, rest⟩
  · exact jsNatStrAux_ne_nil i he
  · obtain ⟨d, hd10, hdc⟩ :=
      jsNatStrAux_mem (i + 1) i c (he ▸ List.mem_cons_self c rest)
    rw [he] at hd
    have hc : c = 'a' := by
      have : "antara-".data = 'a' :: "ntara-".data := rfl
      rw [this] at hd
      exact (List.cons_eq_cons.mp hd).1
    exact jsDigitChar_ne_a d hd10 (hdc ▸ hc)

/-- Decimal strings are never empty. -/
theorem jsNatStr_ne_empty (n : Nat) : jsNatStr n ≠ "" := by
  intro h
  exact jsNatStrAux_ne_nil n (congrArg String.data h)

/-- `"antara-"`-prefixed decimal keys are injective in the number. -/
theorem antaraKey_inj (a b : Nat)
    (h : "antara-" ++ jsNatStr a = "antara-" ++ jsNatStr b) : a = b := by
  have hd : "antara-".data ++ jsNatStrAux (a + 1) a =
      "antara-".data ++ jsNatStrAux (b + 1) b := by
    simpa [jsNatStr, String.data_append] using congrArg String.data h
  have hl := List.append_cancel_left hd
  exact jsNatStr_inj a b (congrArg String.mk hl)


/-! ### Map and default-filling facts -/

theorem jget_jset_self (m : Jmap) (k : String) (v : Int) :
    jget (jset m k v) k = some v := by
  induction m with
  | nil => simp [jset, jget]
  | cons p rest ih =>
    obtain ⟨a, b⟩ := p
    by_cases h : a = k
    · simp [jset, jget, h]
    · simp [jset, jget, h, ih]

theorem jget_jset_ne (m : Jmap) (k k' : String) (v : Int) (h : k' ≠ k) :
    jget (jset m k v) k' = jget m k' := by
  have hkk : ¬(k = k') := fun hh => h hh.symm
  induction m with
  | nil => simp [jset, jget, hkk]
  | cons p rest ih =>
    obtain ⟨a, b⟩ := p
    by_cases ha : a = k
    · subst ha
      simp [jset, jget, hkk]
    · by_cases hk' : a = k'
      · simp [jset, jget, ha, hk', h]
      · simp [jset, jget, ha, hk', ih]

theorem jget_fillStep_ne (m : Jmap) (k k' : String) (v : Int) (h : k' ≠ k) :
    jget (fillStep m k v) k' = jget m k' := by
  unfold fillStep
  split
  · rfl
  · exact jget_jset_ne m k k' v h

theorem jtruthy_eq_false_iff (o : Option Int) :
    jtruthy o = false ↔ o = none ∨ o = some 0 := by
  cases o with
  | none => simp [jtruthy]
  | some w => simp [jtruthy]

theorem fillList_cons (p : String × Int) (ks : List (String × Int))
    (m : Jmap) :
    fillList (p :: ks) m = fillList ks (fillStep m p.1 p.2) := rfl

/-- Entries that are already truthy are preserved by the filling loops. -/
theorem fillList_preserve (ks : List (String × Int)) (m : Jmap) (k : String)
    (h : jtruthy (jget m k) = true) : jget (fillList ks m) k = jget m k := by
  induction ks generalizing m with
  | nil => rfl
  | cons p rest ih =>
    rw [fillList_cons]
    by_cases hk : k = p.1
    · have hstep : fillStep m p.1 p.2 = m := by
        rw [← hk]; simp [fillStep, h]
      rw [hstep]
      exact ih m h
    · have h2 : jget (fillStep m p.1 p.2) k = jget m k :=
        jget_fillStep_ne m p.1 k p.2 hk
      rw [ih (fillStep m p.1 p.2) (by rw [h2]; exact h), h2]

/-- Keys not written by the loop are untouched. -/
theorem fillList_of_ne (ks : List (String × Int)) (m : Jmap) (k : String)
    (h : ∀ p ∈ ks, p.1 ≠ k) : jget (fillList ks m) k = jget m k := by
  induction ks generalizing m with
  | nil => rfl
  | cons p rest ih =>
    rw [fillList_cons]
    have h2 : jget (fillStep m p.1 p.2) k = jget m k :=
      jget_fillStep_ne m p.1 k p.2 (Ne.symm (h p (List.mem_cons_self p rest)))
    rw [ih (fillStep m p.1 p.2) (fun q hq => h q (List.mem_cons_of_mem p hq)),
      h2]

/-- After the loop, each key either kept its old value or holds some
non-zero written value. -/
theorem fillList_result (ks : List (String × Int)) (m : Jmap) (k : String)
    (hv : ∀ p ∈ ks, p.2 ≠ 0) :
    jget (fillList ks m) k = jget m k ∨
      ∃ v, jget (fillList ks m) k = some v ∧ v ≠ 0 := by
  induction ks generalizing m with
  | nil => exact Or.inl rfl
  | cons p rest ih =>
    rw [fillList_cons]
    by_cases hk : k = p.1
    · rcases hs : jtruthy (jget m k) with _ | _
      · have hstep : fillStep m p.1 p.2 = jset m k p.2 := by
          rw [← hk]; simp [fillStep, hs]
        have hw : jget (fillStep m p.1 p.2) k = some p.2 := by
          rw [hstep]; exact jget_jset_self m k p.2
        have hnz : p.2 ≠ 0 := hv p (List.mem_cons_self p rest)
        have ht : jtruthy (jget (fillStep m p.1 p.2) k) = true := by
          rw [hw]; simp [jtruthy, hnz]
        right
        exact ⟨p.2, by rw [fillList_preserve rest _ k ht, hw], hnz⟩
      · have hstep : fillStep m p.1 p.2 = m := by
          rw [← hk]; simp [fillStep, hs]
        rw [hstep]
        exact ih m (fun q hq => hv q (List.mem_cons_of_mem p hq))
    · have h2 : jget (fillStep m p.1 p.2) k = jget m k :=
        jget_fillStep_ne m p.1 k p.2 hk
      rcases ih (fillStep m p.1 p.2)
          (fun q hq => hv q (List.mem_cons_of_mem p hq)) with hcase | hcase
      · exact Or.inl (by rw [hcase, h2])
      · exact Or.inr hcase

/-- A falsy key that the loop writes (with a consistent non-zero value)
ends up holding that value. -/
theorem fillList_writes (ks : List (String × Int)) (m : Jmap) (k : String)
    (v : Int) (hv : ∀ p ∈ ks, p.2 ≠ 0) (hmem : (k, v) ∈ ks)
    (huniq : ∀ v', (k, v') ∈ ks → v' = v)
    (hf : jtruthy (jget m k) = false) :
    jget (fillList ks m) k = some v := by
  induction ks generalizing m with
  | nil => simp at hmem
  | cons p rest ih =>
    rw [fillList_cons]
    by_cases hk : p.1 = k
    · have hp : p = (k, p.2) := by
        rw [← hk]
      have hv2 : p.2 = v := huniq p.2 (by rw [← hp]; exact List.mem_cons_self p rest)
      have hstep : fillStep m p.1 p.2 = jset m k v := by
        rw [hk, hv2]; simp [fillStep, hf]
      have hw : jget (fillStep m p.1 p.2) k = some v := by
        rw [hstep]; exact jget_jset_self m k v
      have hnz : v ≠ 0 := hv2 ▸ hv p (List.mem_cons_self p rest)
      have ht : jtruthy (jget (fillStep m p.1 p.2) k) = true := by
        rw [hw]; simp [jtruthy, hnz]
      rw [fillList_preserve rest _ k ht, hw]
    · have h2 : jget (fillStep m p.1 p.2) k = jget m k :=
        jget_fillStep_ne m p.1 k p.2 (Ne.symm hk)
      have hmem' : (k, v) ∈ rest := by
        rcases List.mem_cons.mp hmem with heq | ht
        · exact absurd (congrArg Prod.fst heq.symm) hk
        · exact ht
      exact ih (fillStep m p.1 p.2)
        (fun q hq => hv q (List.mem_cons_of_mem p hq)) hmem'
        (fun v' hv' => huniq v' (List.mem_cons_of_mem p hv'))
        (by rw [h2]; exact hf)

/-- The reduce-sum of credits as a mapped sum. -/
theorem foldl_credits (l : List Course) (a : Int) :
    l.foldl (fun acc c => acc + c.credits) a = a + (l.map Course.credits).sum := by
  induction l generalizing a with
  | nil => simp
  | cons c rest ih => simp [ih]; ring

/-! ### Concrete data for witnesses -/

/-- A well-formed sample course. -/
def sampleCourse : Course :=
  { id := "c1", code := "CS101", name := "Intro", type := "Wajib",
    credits := 3, lecturer := "Dr. X", recommendedSemester := some 1,
    assignedSemester := none }

/-! ### C5: course-draft validation -/

/-- C5: `saveCourse` rejects a draft exactly when its code or name is empty
or its credits lie outside the inclusive range `[1, 8]` (so credits 0 and 9
are rejected while 1 and 8 are accepted), and on rejection it reports an
error key and leaves the state, in particular the course collection,
completely unchanged. -/
theorem C5_saveCourse_validation (st : AppState) (editing : Option String)
    (draft : Course) (newId now : String) :
    ((saveCourse st editing draft newId now).2.isSome = true ↔
      (draft.code = "" ∨ draft.name = "" ∨
        draft.credits < 1 ∨ draft.credits > 8)) ∧
    ((saveCourse st editing draft newId now).2.isSome = true →
      saveCourse st editing draft newId now = (st, some "error_required_fields") ∨
      saveCourse st editing draft newId now = (st, some "error_credits_range")) := by
  unfold saveCourse
  split_ifs with h1 h2
  · refine ⟨⟨fun _ => ?_, fun _ => rfl⟩, fun _ => Or.inl rfl⟩
    rcases h1 with h | h
    · exact Or.inl h
    · exact Or.inr (Or.inl h)
  · refine ⟨⟨fun _ => ?_, fun _ => rfl⟩, fun _ => Or.inr rfl⟩
    rcases h2 with h | h
    · exact Or.inr (Or.inr (Or.inl h))
    · exact Or.inr (Or.inr (Or.inr h))
  · refine ⟨⟨fun hh => by simp at hh, fun hh => ?_⟩, fun hh => by simp at hh⟩
    rcases hh with h | h | h | h
    · exact absurd (Or.inl h) h1
    · exact absurd (Or.inr h) h1
    · exact absurd (Or.inl h) h2
    · exact absurd (Or.inr h) h2

/-- C5 witness: a draft with empty code and credits 0 is rejected leaving
the state unchanged, while a valid boundary draft (credits 1) and one with
credits 8 are accepted. -/
theorem C5_saveCourse_validation_witness :
    (saveCourse initialState none { sampleCourse with code := "" } "n" "t").1 =
      initialState ∧
    (saveCourse initialState none { sampleCourse with credits := 0 } "n"
      "t").2.isSome = true ∧
    (saveCourse initialState none { sampleCourse with credits := 9 } "n"
      "t").2.isSome = true ∧
    (saveCourse initialState none { sampleCourse with credits := 1 } "n"
      "t").2.isSome = false ∧
    (saveCourse initialState none { sampleCourse with credits := 8 } "n"
      "t").2.isSome = false := by
  have h0 := C5_saveCourse_validation initialState none
    { sampleCourse with code := "" } "n" "t"
  have hs : (saveCourse initialState none { sampleCourse with code := "" }
      "n" "t").2.isSome = true := h0.1.mpr (Or.inl rfl)
  refine ⟨?_, ?_, ?_, ?_, ?_⟩
  · rcases h0.2 hs with h | h <;> rw [h]
  · exact (C5_saveCourse_validation initialState none
      { sampleCourse with credits := 0 } "n" "t").1.mpr
      (Or.inr (Or.inr (Or.inl (by decide))))
  · exact (C5_saveCourse_validation initialState none
      { sampleCourse with credits := 9 } "n" "t").1.mpr
      (Or.inr (Or.inr (Or.inr (by decide))))
  · have hiff := (C5_saveCourse_validation initialState none
      { sampleCourse with credits := 1 } "n" "t").1
    cases hx : (saveCourse initialState none
      { sampleCourse with credits := 1 } "n" "t").2.isSome
    · rfl
    · exact absurd (hiff.mp hx) (by decide)
  · have hiff := (C5_saveCourse_validation initialState none
      { sampleCourse with credits := 8 } "n" "t").1
    cases hx : (saveCourse initialState none
      { sampleCourse with credits := 8 } "n" "t").2.isSome
    · rfl
    · exact absurd (hiff.mp hx) (by decide)

/-! ### C6: over-limit assignment needs confirmation -/

/-- C6: for a non-empty semester id, `assignCourse` computes the new total
`getSemesterCredits + course.credits`; within the ceiling it commits
without prompting, and above the ceiling it does not silently block but
reports an overage of exactly `newTotal - ceiling` and commits exactly when
the external confirmation is given. -/
theorem C6_assignCourse_overLimit (st : AppState) (course : Course)
    (sem : String) (confirm : Bool) (now : String) (hsem : sem ≠ "") :
    (getSemesterCredits st sem + course.credits ≤ getSemesterMaxCredits st sem →
      assignCourse st course sem confirm now =
        (assignCommit st course sem now, .committed)) ∧
    (getSemesterCredits st sem + course.credits > getSemesterMaxCredits st sem →
      assignCourse st course sem confirm now =
        (if confirm then
          (assignCommit st course sem now,
           .confirmedOver (getSemesterCredits st sem + course.credits -
             getSemesterMaxCredits st sem))
         else
          (st, .declinedOver (getSemesterCredits st sem + course.credits -
             getSemesterMaxCredits st sem)))) := by
  constructor
  · intro hle
    unfold assignCourse
    rw [if_neg hsem, if_neg (by omega)]
  · intro hgt
    unfold assignCourse
    rw [if_neg hsem, if_pos hgt]

/-- C6 witness: assigning the 3-credit sample course to semester `"1"` of
the initial state (ceiling 20) commits without prompting even with the
confirmation flag false. -/
theorem C6_assignCourse_overLimit_witness :
    (assignCourse initialState sampleCourse "1" false "t").2 =
      AssignResult.committed := by
  have h := (C6_assignCourse_overLimit initialState sampleCourse "1" false
    "t" (by decide)).1 (by decide)
  rw [h]

/-! ### C9: JSON-import validation and atomicity -/

/-- C9: `importJSON` rejects an input whose parsed value lacks a `courses`
field or whose `courses` field is not an array, reporting a descriptive
error, and every import error leaves both the courses and the settings
unchanged (the whole state is unchanged). -/
theorem C9_importJSON_errors (st : AppState) (inp : Option ImportData)
    (confirm : Bool) (now : String) :
    (∀ d, inp = some d → (∀ cs, d.courses ≠ CoursesField.arr cs) →
      importJSON st inp confirm now =
        (st, .error "Invalid JSON format: missing courses array")) ∧
    ((importJSON st inp confirm now).2.isError = true →
      (importJSON st inp confirm now).1 = st) := by
  constructor
  · intro d hd hne
    subst hd
    cases hc : d.courses with
    | missing => simp [importJSON, hc]
    | notArray => simp [importJSON, hc]
    | arr cs => exact absurd hc (hne cs)
  · intro herr
    cases inp with
    | none => rfl
    | some d =>
      cases hc : d.courses with
      | missing => simp [importJSON, hc]
      | notArray => simp [importJSON, hc]
      | arr cs =>
        cases confirm with
        | false => simp [importJSON, hc]
        | true =>
          exfalso
          revert herr
          simp [importJSON, hc, ImportResult.isError]

/-- C9 witness: importing a parsed object whose `courses` field is missing
aborts with the descriptive error and leaves the initial state intact. -/
theorem C9_importJSON_errors_witness :
    importJSON initialState
        (some { courses := CoursesField.missing, settings := none }) true "t" =
      (initialState, .error "Invalid JSON format: missing courses array") := by
  exact (C9_importJSON_errors initialState
    (some { courses := CoursesField.missing, settings := none }) true "t").1
    { courses := CoursesField.missing, settings := none } rfl
    (fun cs h => CoursesField.noConfusion h)

/-! ### C10: falsy credit ceilings fall back to 24 -/

/-- C10: `getSemesterMaxCredits` returns 24 whenever the settings map has
no entry for the semester or stores a falsy (zero) ceiling, and the credit
status comparison of `getCreditClass` then runs against 24. -/
theorem C10_maxCredits_default (st : AppState) (sem : String)
    (h : jget st.settings.semesterMaxCredits sem = none ∨
         jget st.settings.semesterMaxCredits sem = some 0) :
    getSemesterMaxCredits st sem = 24 ∧
    getCreditClass st sem =
      (if getSemesterCredits st sem > 24 then "text-red-600 dark:text-red-400"
       else if getSemesterCredits st sem = 24 then
         "text-green-600 dark:text-green-400"
       else "text-blue-600 dark:text-blue-400") := by
  have h24 : getSemesterMaxCredits st sem = 24 := by
    rcases h with h | h <;> simp [getSemesterMaxCredits, h]
  refine ⟨h24, ?_⟩
  unfold getCreditClass
  rw [h24]

/-- C10 witness: semester id `"9"` is absent from the initial settings map
and is validated against a ceiling of 24. -/
theorem C10_maxCredits_default_witness :
    getSemesterMaxCredits initialState "9" = 24 := by
  exact (C10_maxCredits_default initialState "9" (Or.inl (by decide))).1

/-! ### C1: shape of the generated semester list -/

/-- The order described by the specification: ids `"1".."t"` ascending,
with the antara entry `i/2` immediately after each even-numbered regular
semester `i` having `i < t`, and no trailing antara. -/
def claimedOrder (t : Nat) : List Semester :=
  (List.range t).flatMap (fun j =>
    let i := j + 1
    if i % 2 = 0 ∧ i < t then
      [{ id := jsNatStr i, name := "Semester " ++ jsNatStr i,
         type := "normal" },
       { id := "antara-" ++ jsNatStr (i / 2),
         name := "Antara " ++ jsNatStr (i / 2), type := "antara" }]
    else
      [{ id := jsNatStr i, name := "Semester " ++ jsNatStr i,
         type := "normal" }])

theorem generateSemesterList_snd (t : Int) (m : Jmap) (tc : Int) :
    (generateSemesterList ⟨t, m, tc⟩).2 = semListFor (effTotal t).toNat := rfl

theorem semListFor_bounded : ∀ k, k < 21 → 1 ≤ k →
    (semListFor k).countP (fun s => s.type = "normal") = k ∧
    (semListFor k).countP (fun s => s.type = "antara") = (k - 1) / 2 ∧
    ((semListFor k).filter (fun s => s.type = "normal")).map Semester.id =
      (List.range k).map (fun j => jsNatStr (j + 1)) ∧
    semListFor k = claimedOrder k ∧
    (semListFor k).getLast?.map Semester.type = some "normal" := by decide

/-- C1 (amended): for every `totalSemesters` in `[1, 20]` the generated
list has exactly that many normal entries, ids `"1".."t"` in ascending
order, `⌊(t-1)/2⌋` antara entries interleaved as described, and no trailing
antara; `totalSemesters = 0` is falsy and falls back to the 8-semester
list, and a negative total produces an empty list. -/
theorem C1_generateSemesterList_shape :
    (∀ t : Int, 1 ≤ t → t ≤ 20 → ∀ m tc,
      (generateSemesterList ⟨t, m, tc⟩).2 = claimedOrder t.toNat ∧
      (generateSemesterList ⟨t, m, tc⟩).2.countP
        (fun s => s.type = "normal") = t.toNat ∧
      (generateSemesterList ⟨t, m, tc⟩).2.countP
        (fun s => s.type = "antara") = (t.toNat - 1) / 2 ∧
      ((generateSemesterList ⟨t, m, tc⟩).2.filter
        (fun s => s.type = "normal")).map Semester.id =
        (List.range t.toNat).map (fun j => jsNatStr (j + 1)) ∧
      (generateSemesterList ⟨t, m, tc⟩).2.getLast?.map Semester.type =
        some "normal") ∧
    (∀ m tc, (generateSemesterList ⟨0, m, tc⟩).2 =
      (generateSemesterList ⟨8, m, tc⟩).2) ∧
    (∀ t : Int, t < 0 → ∀ m tc, (generateSemesterList ⟨t, m, tc⟩).2 = []) := by
  refine ⟨?_, ?_, ?_⟩
  · intro t h1 h2 m tc
    have he : effTotal t = t := if_neg (by omega)
    have hk1 : 1 ≤ t.toNat := by omega
    have hk2 : t.toNat < 21 := by omega
    obtain ⟨ha, hb, hc, hd, hge⟩ := semListFor_bounded t.toNat hk2 hk1
    rw [generateSemesterList_snd, he]
    exact ⟨hd, ha, hb, hc, hge⟩
  · intro m tc
    rfl
  · intro t ht m tc
    have he : effTotal t = t := if_neg (by omega)
    have h0 : t.toNat = 0 := by omega
    rw [generateSemesterList_snd, he, h0]
    rfl

/-- C1 counterexample: with `totalSemesters = 0` the source's call-site
default `totalSemesters || 8` kicks in, so the generated list is the full
8-semester list rather than the empty list the claim requires. -/
theorem C1_generateSemesterList_shape_cex :
    (generateSemesterList ⟨0, [], 145⟩).2 ≠ [] ∧
    (generateSemesterList ⟨0, [], 145⟩).2.countP
      (fun s => s.type = "normal") = 8 := by decide

/-- C1 witness: at `totalSemesters = 4` the list follows the claimed
interleaving with one antara entry. -/
theorem C1_generateSemesterList_shape_witness :
    (generateSemesterList ⟨4, [], 145⟩).2 = claimedOrder 4 ∧
    (generateSemesterList ⟨4, [], 145⟩).2.countP
      (fun s => s.type = "antara") = 1 := by
  have h := C1_generateSemesterList_shape.1 4 (by decide) (by decide) [] 145
  exact ⟨h.1, h.2.2.1.trans (by decide)⟩

/-! ### C3: per-semester credit sums and the assign/unassign round trip -/

/-- `assignCourse` either leaves the state alone or produces the committed
state. -/
theorem assignCourse_fst (st : AppState) (c : Course) (s : String)
    (cfm : Bool) (now : String) :
    (assignCourse st c s cfm now).1 = st ∨
    (assignCourse st c s cfm now).1 = assignCommit st c s now := by
  simp only [assignCourse]
  split_ifs <;> simp

theorem assign_unassign_courses (st : AppState) (c : Course) (s : String)
    (cfm : Bool) (now now2 : String) :
    (unassignCourse (assignCourse st c s cfm now).1 c now2).courses =
      st.courses.map (fun e =>
        if e.id = c.id then { e with assignedSemester := none } else e) := by
  have hfun : ∀ (l : List Course),
      (l.map (fun e =>
        if e.id = c.id then { e with assignedSemester := some s } else e)).map
          (fun e =>
            if e.id = c.id then { e with assignedSemester := none } else e) =
      l.map (fun e =>
        if e.id = c.id then { e with assignedSemester := none } else e) := by
    intro l
    rw [List.map_map]
    congr 1
    funext e
    by_cases he : e.id = c.id <;> simp [he]
  rcases assignCourse_fst st c s cfm now with h | h <;> rw [h]
  · rfl
  · simp only [unassignCourse, assignCommit, saveToLocalStorage,
      invalidateCache]
    exact hfun st.courses

theorem filter_unassign_eq (l : List Course) (cid s : String)
    (hyp : ∀ e ∈ l, e.id = cid → e.assignedSemester ≠ some s) :
    (l.map (fun e =>
      if e.id = cid then { e with assignedSemester := none } else e)).filter
        (fun e => e.assignedSemester = some s) =
    l.filter (fun e => e.assignedSemester = some s) := by
  induction l with
  | nil => rfl
  | cons e rest ih =>
    have ih' := ih (fun q hq hq2 => hyp q (List.mem_cons_of_mem e hq) hq2)
    by_cases he : e.id = cid
    · have hne : e.assignedSemester ≠ some s :=
        hyp e (List.mem_cons_self e rest) he
      simp [he, hne, ih']
    · by_cases hp : e.assignedSemester = some s <;> simp [he, hp, ih']

/-- C3 (amended): `getSemesterCredits s` is the sum of credits over exactly
the courses with `assignedSemester = s`; and assigning a course to `s` and
then unassigning it restores the sum, provided the course was not already
assigned to `s` (an already-assigned course ends up unassigned, which
lowers the sum). -/
theorem C3_semesterCredits (st : AppState) (s : String) (c : Course)
    (cfm : Bool) (now now2 : String) :
    getSemesterCredits st s =
      ((st.courses.filter (fun e => e.assignedSemester = some s)).map
        Course.credits).sum ∧
    ((∀ e ∈ st.courses, e.id = c.id → e.assignedSemester ≠ some s) →
      getSemesterCredits
        (unassignCourse (assignCourse st c s cfm now).1 c now2) s =
        getSemesterCredits st s) := by
  have hpart1 : ∀ (st' : AppState), getSemesterCredits st' s =
      ((st'.courses.filter (fun e => e.assignedSemester = some s)).map
        Course.credits).sum := by
    intro st'
    unfold getSemesterCredits getSemesterCourses
    rw [foldl_credits]
    ring
  refine ⟨hpart1 st, fun hyp => ?_⟩
  rw [hpart1, hpart1, assign_unassign_courses, filter_unassign_eq]
  exact hyp

/-- C3 counterexample: a 3-credit course already assigned to semester `"1"`
is assigned to `"1"` again and then unassigned; the semester's credit sum
drops from 3 to 0 instead of returning to its prior value. -/
theorem C3_semesterCredits_cex :
    getSemesterCredits
      { initialState with
        courses := [{ sampleCourse with assignedSemester := some "1" }] }
      "1" = 3 ∧
    getSemesterCredits
      (unassignCourse
        (assignCourse
          { initialState with
            courses := [{ sampleCourse with assignedSemester := some "1" }] }
          { sampleCourse with assignedSemester := some "1" } "1" true "t").1
        { sampleCourse with assignedSemester := some "1" } "t2") "1" = 0 := by
  decide

/-- C3 witness: for a course not already in semester `"1"`, assigning and
unassigning restores the semester's credit sum. -/
theorem C3_semesterCredits_witness :
    getSemesterCredits
      (unassignCourse
        (assignCourse { initialState with courses := [sampleCourse] }
          sampleCourse "1" true "t").1 sampleCourse "t2") "1" =
      getSemesterCredits { initialState with courses := [sampleCourse] } "1" := by
  exact (C3_semesterCredits { initialState with courses := [sampleCourse] }
    "1" sampleCourse true "t" "t2").2 (by decide)

/-! ### C7: every mutation invalidates the length-keyed caches -/

/-- Both derived-aggregate caches are in their invalidated (`null`)
state. -/
def invalidatedCaches (st : AppState) : Prop :=
  st.cachedUnassigned = none ∧ st.cachedTotal = none

/-- C7: every mutating operation (`saveCourse`, `deleteCourse`,
`assignCourse`, `unassignCourse`, `autoMapCourses`, `importJSON`,
`importCSV`) either leaves the state untouched or leaves both caches
invalidated — including in-place `assignedSemester` changes that keep the
course count unchanged — and in any cache-invalidated state the getters
recompute: `unassignedCourses` is the filter of courses with a `null`
assignment and `totalCreditsTaken` is the credit sum over courses with a
non-`null` assignment. -/
theorem C7_cacheInvalidation :
    (∀ st editing draft newId now,
      (saveCourse st editing draft newId now).1 = st ∨
      invalidatedCaches (saveCourse st editing draft newId now).1) ∧
    (∀ st c confirm now, deleteCourse st c confirm now = st ∨
      invalidatedCaches (deleteCourse st c confirm now)) ∧
    (∀ st c s confirm now, (assignCourse st c s confirm now).1 = st ∨
      invalidatedCaches (assignCourse st c s confirm now).1) ∧
    (∀ st c now, invalidatedCaches (unassignCourse st c now)) ∧
    (∀ st now, (autoMapCourses st now).1 = st ∨
      invalidatedCaches (autoMapCourses st now).1) ∧
    (∀ st inp confirm now, (importJSON st inp confirm now).1 = st ∨
      invalidatedCaches (importJSON st inp confirm now).1) ∧
    (∀ st parsed confirm now, importCSV st parsed confirm now = st ∨
      invalidatedCaches (importCSV st parsed confirm now)) ∧
    (∀ st2, invalidatedCaches st2 →
      (∀ e ∈ st2.courses, e.assignedSemester ≠ some "") →
      unassignedCourses st2 =
        st2.courses.filter (fun c => c.assignedSemester = none) ∧
      totalCreditsTaken st2 =
        ((st2.courses.filter (fun c => c.assignedSemester ≠ none)).map
          Course.credits).sum) := by
  refine ⟨?_, ?_, ?_, ?_, ?_, ?_, ?_, ?_⟩
  · intro st editing draft newId now
    simp only [saveCourse]
    split_ifs
    · exact Or.inl rfl
    · exact Or.inl rfl
    · exact Or.inr ⟨rfl, rfl⟩
  · intro st c confirm now
    simp only [deleteCourse]
    split_ifs
    · exact Or.inr ⟨rfl, rfl⟩
    · exact Or.inl rfl
    · exact Or.inl rfl
  · intro st c s confirm now
    rcases assignCourse_fst st c s confirm now with h | h <;> rw [h]
    · exact Or.inl rfl
    · exact Or.inr ⟨rfl, rfl⟩
  · intro st c now
    exact ⟨rfl, rfl⟩
  · intro st now
    simp only [autoMapCourses]
    split_ifs
    · exact Or.inr ⟨rfl, rfl⟩
    · exact Or.inl rfl
  · intro st inp confirm now
    cases inp with
    | none => exact Or.inl rfl
    | some d =>
      cases hc : d.courses with
      | missing => simp [importJSON, hc]
      | notArray => simp [importJSON, hc]
      | arr cs =>
        cases confirm with
        | false => simp [importJSON, hc]
        | true =>
          right
          simp only [importJSON, hc]
          exact ⟨rfl, rfl⟩
  · intro st parsed confirm now
    cases parsed with
    | none => exact Or.inl rfl
    | some cs =>
      cases confirm with
      | false => exact Or.inl rfl
      | true => exact Or.inr ⟨rfl, rfl⟩
  · intro st2 hinv hA
    constructor
    · unfold unassignedCourses
      rw [if_pos (Or.inl hinv.1)]
      apply List.filter_congr
      intro e he
      cases hae : e.assignedSemester with
      | none => simp [truthyOptStr]
      | some x =>
        have hx : ¬(x = "") := by
          intro hx
          exact hA e he (by rw [hae, hx])
        simp [truthyOptStr, hx]
    · unfold totalCreditsTaken
      rw [if_pos (Or.inl hinv.2), foldl_credits]
      have hfe : st2.courses.filter (fun c => truthyOptStr c.assignedSemester) =
          st2.courses.filter (fun c => c.assignedSemester ≠ none) := by
        apply List.filter_congr
        intro e he
        cases hae : e.assignedSemester with
        | none => simp [truthyOptStr]
        | some x =>
          have hx : ¬(x = "") := by
            intro hx
            exact hA e he (by rw [hae, hx])
          simp [truthyOptStr, hx]
      rw [hfe]
      ring

/-- A state with one course and warm (stale) caches. -/
def warmState : AppState :=
  { initialState with
    courses := [sampleCourse]
    cachedUnassigned := some []
    cachedTotal := some 99
    lastCoursesUpdate := 1
    lastTotalUpdate := 1 }

/-- C7 witness: after unassigning a course in a state with warm caches,
both getters agree with their specifications. -/
theorem C7_cacheInvalidation_witness :
    unassignedCourses (unassignCourse warmState sampleCourse "t") =
      [sampleCourse] ∧
    totalCreditsTaken (unassignCourse warmState sampleCourse "t") = 0 := by
  have h := C7_cacheInvalidation
  have hc := h.2.2.2.2.2.2.2
    (unassignCourse warmState sampleCourse "t")
    (h.2.2.2.1 warmState sampleCourse "t")
    (by decide)
  exact ⟨hc.1.trans (by decide), hc.2.trans (by decide)⟩

/-! ### C4: auto-mapping -/

theorem map_id_of_mem {α : Type} (l : List α) (f : α → α)
    (h : ∀ e ∈ l, f e = e) : l.map f = l := by
  induction l with
  | nil => rfl
  | cons e rest ih =>
    rw [List.map_cons, h e (List.mem_cons_self e rest),
      ih (fun q hq => h q (List.mem_cons_of_mem e hq))]

theorem autoMapCond_spec (lst : List Semester) (c : Course) :
    autoMapCond lst c = true ↔
      (truthyOptStr c.assignedSemester = false ∧
       ∃ r : Int, c.recommendedSemester = some r ∧ r ≠ 0 ∧
         ∃ sem ∈ lst, sem.id = jsIntStr r) := by
  unfold autoMapCond
  cases hr : c.recommendedSemester with
  | none => simp
  | some r =>
    simp only [Bool.and_eq_true, Bool.not_eq_true', decide_eq_true_eq,
      List.any_eq_true, Option.some.injEq]
    constructor
    · rintro ⟨h1, h2, sem, hsem, hid⟩
      exact ⟨h1, r, rfl, h2, sem, hsem, hid⟩
    · rintro ⟨h1, r', hr', h2, sem, hsem, hid⟩
      cases hr'
      exact ⟨h1, h2, sem, hsem, hid⟩

theorem autoMapCourses_of_zero (st : AppState) (now : String)
    (h : st.courses.countP (autoMapCond st.semesterList) = 0) :
    autoMapCourses st now = (st, 0) := by
  simp only [autoMapCourses, h]
  rfl

theorem autoMapCourses_fst_courses (st : AppState) (now : String) :
    (autoMapCourses st now).1.courses =
      st.courses.map (autoMapFn st.semesterList) ∧
    (autoMapCourses st now).1.semesterList = st.semesterList ∧
    (autoMapCourses st now).2 = st.courses.countP (autoMapCond st.semesterList) := by
  simp only [autoMapCourses]
  split_ifs with h
  · exact ⟨rfl, rfl, rfl⟩
  · have hz : st.courses.countP (autoMapCond st.semesterList) = 0 := by omega
    have hall := List.countP_eq_zero.mp hz
    refine ⟨?_, rfl, rfl⟩
    rw [map_id_of_mem]
    intro e he
    unfold autoMapFn
    rw [if_neg (by simpa using hall e he)]

/-- C4: `autoMapCourses` never assigns a course whose stringified
recommendation is absent from the semester list; courses with a null
recommendation or a non-null assignment are left untouched; every
unassigned course whose recommendation occurs in the list gets exactly its
stringified recommendation; the mapped count is reported; and a second run
performs no further change.  (Hypotheses: the data-model invariants that
assignments are never the empty string, recommendations are never the
falsy `0`, and semester ids are non-empty.) -/
theorem C4_autoMap (st : AppState) (now now2 : String)
    (hA : ∀ e ∈ st.courses, e.assignedSemester ≠ some "")
    (hR : ∀ e ∈ st.courses, e.recommendedSemester ≠ some 0)
    (hL : ∀ sem ∈ st.semesterList, sem.id ≠ "") :
    (autoMapCourses st now).1.courses =
      st.courses.map (autoMapFn st.semesterList) ∧
    (∀ e ∈ st.courses,
      (e.assignedSemester ≠ none ∨ e.recommendedSemester = none ∨
        (∀ sem ∈ st.semesterList,
          sem.id ≠ jsIntStr (e.recommendedSemester.getD 0))) →
      autoMapFn st.semesterList e = e) ∧
    (∀ e ∈ st.courses, ∀ r : Int, e.assignedSemester = none →
      e.recommendedSemester = some r →
      (∃ sem ∈ st.semesterList, sem.id = jsIntStr r) →
      autoMapFn st.semesterList e =
        { e with assignedSemester := some (jsIntStr r) }) ∧
    (autoMapCourses st now).2 =
      st.courses.countP (autoMapCond st.semesterList) ∧
    autoMapCourses (autoMapCourses st now).1 now2 =
      ((autoMapCourses st now).1, 0) := by
  obtain ⟨hcourses, hlist, hcnt⟩ := autoMapCourses_fst_courses st now
  refine ⟨hcourses, ?_, ?_, hcnt, ?_⟩
  · intro e he hcase
    unfold autoMapFn
    rw [if_neg]
    intro hcond
    obtain ⟨h1, r, hr, hnz, sem, hsem, hid⟩ := (autoMapCond_spec _ _).mp hcond
    rcases hcase with hcase | hcase | hcase
    · rcases hx : e.assignedSemester with _ | x
      · exact hcase hx
      · have hxe : x ≠ "" := fun hxe => hA e he (by rw [hx, hxe])
        rw [hx] at h1
        simp [truthyOptStr, hxe] at h1
    · rw [hcase] at hr
      exact Option.noConfusion hr
    · rw [hr] at hcase
      exact hcase sem hsem (by simpa using hid)
  · intro e he r h1 h2 hex
    unfold autoMapFn
    rw [if_pos]
    · rw [h2]
      rfl
    · refine (autoMapCond_spec _ _).mpr ⟨by rw [h1]; rfl, r, h2, ?_, hex⟩
      intro hr0
      exact hR e he (by rw [h2, hr0])
  · have hzero : (autoMapCourses st now).1.courses.countP
        (autoMapCond (autoMapCourses st now).1.semesterList) = 0 := by
      rw [hlist, hcourses]
      apply List.countP_eq_zero.mpr
      intro e' he'
      obtain ⟨e, he, rfl⟩ := List.mem_map.mp he'
      intro hcond'
      rcases hc : autoMapCond st.semesterList e with _ | _
      · unfold autoMapFn at hcond'
        rw [hc] at hcond'
        simp only [Bool.false_eq_true, if_false] at hcond'
        rw [hc] at hcond'
        exact Bool.noConfusion hcond'
      · obtain ⟨h1, r, hr, hnz, sem, hsem, hid⟩ := (autoMapCond_spec _ _).mp hc
        unfold autoMapFn at hcond'
        rw [hc] at hcond'
        simp only [if_true] at hcond'
        obtain ⟨h1', _, _, _, _⟩ := (autoMapCond_spec _ _).mp hcond'
        rw [hr] at h1'
        simp only [Option.getD_some] at h1'
        have hne : jsIntStr r ≠ "" := fun hh => hL sem hsem (hid.trans hh)
        simp [truthyOptStr, hne] at h1'
    exact autoMapCourses_of_zero _ now2 hzero

/-- A state whose semester list has been generated, holding one unassigned
course recommended for semester 1. -/
def c4State : AppState :=
  { initialState with
    courses := [sampleCourse]
    semesterList := (generateSemesterList initialState.settings).2 }

/-- C4 witness: the sample course is auto-mapped to semester `"1"`, and a
second run maps nothing. -/
theorem C4_autoMap_witness :
    (autoMapCourses c4State "t").1.courses =
      [{ sampleCourse with assignedSemester := some "1" }] ∧
    autoMapCourses (autoMapCourses c4State "t").1 "t2" =
      ((autoMapCourses c4State "t").1, 0) := by
  have h := C4_autoMap c4State "t" "t2" (by decide) (by decide) (by decide)
  exact ⟨h.1.trans (by decide), h.2.2.2.2⟩

/-! ### C2: JSON export/import round trip -/

/-- C2 (amended): exporting and re-importing the plan (confirmation given)
reproduces the courses array and the settings exactly, provided the plan's
`totalSemesters` is truthy (non-zero) and its credit-ceiling map is already
stable under the generator's default-filling; only `exportDate`/`lastSaved`
style metadata changes.  (Without the proviso the import normalises
`totalSemesters` to 8 and back-fills ceiling defaults.) -/
theorem C2_roundTrip (st : AppState) (d now : String)
    (hT : st.settings.totalSemesters ≠ 0)
    (hFix : (generateSemesterList st.settings).1 = st.settings) :
    (importJSON st (some (parseExport (exportToJSON st d))) true now).1.courses =
      st.courses ∧
    (importJSON st (some (parseExport (exportToJSON st d))) true now).1.settings =
      st.settings := by
  have hFix2 : (generateSemesterList
      ⟨st.settings.totalSemesters, st.settings.semesterMaxCredits,
        st.settings.targetCredits⟩).1 = st.settings := hFix
  constructor
  · simp only [importJSON, parseExport, exportToJSON, mergeSettings,
      Option.getD_some]
    rw [if_neg hT]
    rfl
  · simp only [importJSON, parseExport, exportToJSON, mergeSettings,
      Option.getD_some]
    rw [if_neg hT]
    exact hFix2

/-- A state whose settings have a falsy `totalSemesters` and an unfilled
ceiling map. -/
def c2State : AppState :=
  { initialState with
    settings :=
      { totalSemesters := 0, semesterMaxCredits := [], targetCredits := 145 } }

/-- C2 counterexample: exporting a plan with `totalSemesters = 0` and
re-importing it (confirmation given) does not reproduce the settings:
the importer normalises `totalSemesters` to 8 and back-fills default
ceilings. -/
theorem C2_roundTrip_cex :
    (importJSON c2State (some (parseExport (exportToJSON c2State "d"))) true
      "t").1.settings ≠ c2State.settings ∧
    (importJSON c2State (some (parseExport (exportToJSON c2State "d"))) true
      "t").1.settings.totalSemesters = 8 := by decide

/-- C2 witness: the initial state round-trips exactly. -/
theorem C2_roundTrip_witness :
    (importJSON initialState
        (some (parseExport (exportToJSON initialState "d"))) true
        "t").1.courses = initialState.courses ∧
    (importJSON initialState
        (some (parseExport (exportToJSON initialState "d"))) true
        "t").1.settings = initialState.settings :=
  C2_roundTrip initialState "d" "t" (by decide) (by decide)

/-! ### C8: default-filling of the ceiling map -/

theorem generateSemesterList_credits (s : Settings) :
    (generateSemesterList s).1.semesterMaxCredits =
      fillList (antKeys (antaraCount (effTotal s.totalSemesters)))
        (fillList (regKeys (effTotal s.totalSemesters).toNat)
          s.semesterMaxCredits) := rfl

theorem regKeys_vals (n : Nat) : ∀ p ∈ regKeys n, p.2 ≠ 0 := by
  intro p hp
  obtain ⟨j, hj, rfl⟩ := List.mem_map.mp hp
  dsimp only
  split_ifs <;> norm_num

theorem antKeys_vals (c : Nat) : ∀ p ∈ antKeys c, p.2 ≠ 0 := by
  intro p hp
  obtain ⟨j, hj, rfl⟩ := List.mem_map.mp hp
  norm_num

/-- C8 (amended): the default-filling of `generateSemesterList` sets a
ceiling exactly for ids whose current entry is falsy — missing or `0` —
(20 for regular semesters 1–2, 24 for regular semesters 3+, 9 for the
`⌊(t-1)/2⌋` antara ids); entries with a non-zero value, including entries
for semesters that no longer exist, keep their prior value, and no entry
is ever removed.  (The claim's "only for ids missing from the map" fails:
a present entry whose stored value is `0` is falsy and gets
overwritten.) -/
theorem C8_defaultFilling (s : Settings) :
    (∀ k v, jget s.semesterMaxCredits k = some v → v ≠ 0 →
      jget (generateSemesterList s).1.semesterMaxCredits k = some v) ∧
    (∀ k, jget (generateSemesterList s).1.semesterMaxCredits k ≠
        jget s.semesterMaxCredits k →
      jget s.semesterMaxCredits k = none ∨
      jget s.semesterMaxCredits k = some 0) ∧
    (∀ k v, jget s.semesterMaxCredits k = some v →
      ∃ w, jget (generateSemesterList s).1.semesterMaxCredits k = some w) ∧
    (∀ i : Nat, 1 ≤ i → i ≤ (effTotal s.totalSemesters).toNat →
      (jget s.semesterMaxCredits (jsNatStr i) = none ∨
       jget s.semesterMaxCredits (jsNatStr i) = some 0) →
      jget (generateSemesterList s).1.semesterMaxCredits (jsNatStr i) =
        some (if i ≤ 2 then 20 else 24)) ∧
    (∀ j : Nat, 1 ≤ j → j ≤ antaraCount (effTotal s.totalSemesters) →
      (jget s.semesterMaxCredits ("antara-" ++ jsNatStr j) = none ∨
       jget s.semesterMaxCredits ("antara-" ++ jsNatStr j) = some 0) →
      jget (generateSemesterList s).1.semesterMaxCredits
        ("antara-" ++ jsNatStr j) = some 9) := by
  set m := s.semesterMaxCredits with hm
  set n := (effTotal s.totalSemesters).toNat with hn
  set ac := antaraCount (effTotal s.totalSemesters) with hac
  refine ⟨?_, ?_, ?_, ?_, ?_⟩
  · intro k v hget hnz
    have ht : jtruthy (jget m k) = true := by rw [hget]; simp [jtruthy, hnz]
    rw [generateSemesterList_credits, ← hm, ← hn, ← hac,
      fillList_preserve _ _ k (by rw [fillList_preserve _ _ k ht]; exact ht),
      fillList_preserve _ _ k ht, hget]
  · intro k hne
    rcases ht : jtruthy (jget m k) with _ | _
    · exact (jtruthy_eq_false_iff _).mp ht
    · exfalso
      apply hne
      rw [generateSemesterList_credits, ← hm, ← hn, ← hac,
        fillList_preserve _ _ k (by rw [fillList_preserve _ _ k ht]; exact ht),
        fillList_preserve _ _ k ht]
  · intro k v hget
    rw [generateSemesterList_credits, ← hm, ← hn, ← hac]
    rcases fillList_result (regKeys n) m k (regKeys_vals n) with h1 | ⟨w, hw, hwnz⟩
    · rcases fillList_result (antKeys ac) (fillList (regKeys n) m) k
          (antKeys_vals ac) with h2 | ⟨w2, hw2, _⟩
      · exact ⟨v, by rw [h2, h1, hget]⟩
      · exact ⟨w2, hw2⟩
    · have ht : jtruthy (jget (fillList (regKeys n) m) k) = true := by
        rw [hw]; simp [jtruthy, hwnz]
      exact ⟨w, by rw [fillList_preserve _ _ k ht, hw]⟩
  · intro i h1 h2 hfalsy
    have hf : jtruthy (jget m (jsNatStr i)) = false :=
      (jtruthy_eq_false_iff _).mpr hfalsy
    have hmem : (jsNatStr i, if i ≤ 2 then (20 : Int) else 24) ∈ regKeys n := by
      apply List.mem_map.mpr
      refine ⟨i - 1, List.mem_range.mpr (by omega), ?_⟩
      have hi : i - 1 + 1 = i := by omega
      rw [hi]
    have huniq : ∀ v', (jsNatStr i, v') ∈ regKeys n →
        v' = if i ≤ 2 then (20 : Int) else 24 := by
      intro v' hv'
      obtain ⟨j, hj, heq⟩ := List.mem_map.mp hv'
      have hfst : jsNatStr (j + 1) = jsNatStr i := congrArg Prod.fst heq
      have hj1 : j + 1 = i := jsNatStr_inj (j + 1) i hfst
      have hsnd : (if j + 1 ≤ 2 then (20 : Int) else 24) = v' :=
        congrArg Prod.snd heq
      rw [← hsnd, hj1]
    have hm1 : jget (fillList (regKeys n) m) (jsNatStr i) =
        some (if i ≤ 2 then (20 : Int) else 24) :=
      fillList_writes (regKeys n) m (jsNatStr i) _ (regKeys_vals n) hmem
        huniq hf
    have ht : jtruthy (jget (fillList (regKeys n) m) (jsNatStr i)) = true := by
      rw [hm1]
      have : (if i ≤ 2 then (20 : Int) else 24) ≠ 0 := by split_ifs <;> norm_num
      simp [jtruthy, this]
    rw [generateSemesterList_credits, ← hm, ← hn, ← hac,
      fillList_preserve _ _ _ ht, hm1]
  · intro j h1 h2 hfalsy
    have hreg : jget (fillList (regKeys n) m) ("antara-" ++ jsNatStr j) =
        jget m ("antara-" ++ jsNatStr j) := by
      apply fillList_of_ne
      intro p hp
      obtain ⟨j', hj', rfl⟩ := List.mem_map.mp hp
      exact jsNatStr_ne_antara (j' + 1) j
    have hf : jtruthy (jget (fillList (regKeys n) m)
        ("antara-" ++ jsNatStr j)) = false := by
      rw [hreg]
      exact (jtruthy_eq_false_iff _).mpr hfalsy
    have hmem : ("antara-" ++ jsNatStr j, (9 : Int)) ∈ antKeys ac := by
      apply List.mem_map.mpr
      refine ⟨j - 1, List.mem_range.mpr (by omega), ?_⟩
      have hj : j - 1 + 1 = j := by omega
      rw [hj]
    have huniq : ∀ v', ("antara-" ++ jsNatStr j, v') ∈ antKeys ac →
        v' = (9 : Int) := by
      intro v' hv'
      obtain ⟨j', hj', heq⟩ := List.mem_map.mp hv'
      exact (congrArg Prod.snd heq).symm
    rw [generateSemesterList_credits, ← hm, ← hn, ← hac]
    exact fillList_writes (antKeys ac) _ _ _ (antKeys_vals ac) hmem huniq hf

/-- C8 counterexample: an entry present in the map with value `0` does not
keep its prior value — the falsy check `!map[k]` overwrites it with the
default 20. -/
theorem C8_defaultFilling_cex :
    jget (Settings.mk 1 [("1", 0)] 0).semesterMaxCredits "1" = some 0 ∧
    jget (generateSemesterList (Settings.mk 1 [("1", 0)] 0)).1.semesterMaxCredits
      "1" = some 20 := by decide

/-- C8 witness: with 4 semesters and only semester 1 configured, semester 3
gets the default 24, antara 1 gets 9, and the configured entry survives. -/
theorem C8_defaultFilling_witness :
    jget (generateSemesterList (Settings.mk 4 [("1", 18)] 145)).1.semesterMaxCredits
      (jsNatStr 3) = some 24 ∧
    jget (generateSemesterList (Settings.mk 4 [("1", 18)] 145)).1.semesterMaxCredits
      ("antara-" ++ jsNatStr 1) = some 9 ∧
    jget (generateSemesterList (Settings.mk 4 [("1", 18)] 145)).1.semesterMaxCredits
      "1" = some 18 := by
  have h := C8_defaultFilling (Settings.mk 4 [("1", 18)] 145)
  refine ⟨?_, ?_, ?_⟩
  · exact (h.2.2.2.1 3 (by norm_num) (by decide) (Or.inl (by decide))).trans
      (by norm_num)
  · exact h.2.2.2.2 1 (by norm_num) (by decide) (Or.inl (by decide))
  · exact h.1 "1" 18 (by decide) (by norm_num)
